import Mathlib

/-!
Verification of the coin-combination library and its HTTP facade
(src/lib.rs and src/web.rs): a shallow embedding of the data model and
the operations, followed by theorems about enumeration, random sampling,
value aggregation and the handler payloads.
-/

/-- The four coin denominations, in the source's declaration order. -/
inductive Coin where
  | Penny
  | Nickel
  | Dime
  | Quarter
deriving DecidableEq, Repr

/-- `Coin::all()`: the four coins in fixed order Penny, Nickel, Dime, Quarter. -/
def Coin.all : List Coin :=
  [Coin.Penny, Coin.Nickel, Coin.Dime, Coin.Quarter]

/-- `Coin::value_in_cents()`: the face value of a coin in cents. -/
def Coin.value_in_cents : Coin → Nat
  | Coin.Penny => 1
  | Coin.Nickel => 5
  | Coin.Dime => 10
  | Coin.Quarter => 25

/-- The ordinal (bit position) of each coin: Penny=0, Nickel=1, Dime=2,
Quarter=3, matching the declaration order used by `Coin::all()`. -/
def Coin.ordinal : Coin → Nat
  | Coin.Penny => 0
  | Coin.Nickel => 1
  | Coin.Dime => 2
  | Coin.Quarter => 3

/-- `generate_all_combinations()`: for every mask `i` in `0..(1 << 4)`,
the inner loop pushes `coins[j]` whenever bit `j` of `i` is set, for
`j` in `0..4`. -/
def generate_all_combinations : List (List Coin) :=
  let coins := Coin.all
  let total_coins := coins.length
  let total_combinations := 1 <<< total_coins
  (List.range total_combinations).map (fun i =>
    (List.range total_coins).foldl
      (fun combination j =>
        if (i >>> j) &&& 1 = 1 then combination ++ [coins.getD j Coin.Penny]
        else combination)
      [])

/-- `total_value()`: the sum of `value_in_cents` (as `u32`) over the slice;
the `% 2 ^ 32` reflects `u32` arithmetic. -/
def total_value (coins : List Coin) : Nat :=
  ((coins.map fun coin => Coin.value_in_cents coin).sum) % 2 ^ 32

/-- `generate_random_combination()`, as a function of the drawn mask `i`
(the code draws `i` from `0..(1 << 4)`): the inner loop pushes `coins[j]`
whenever bit `j` of `i` is set, duplicating the decoding loop of
`generate_all_combinations`. -/
def generate_random_combination (i : Nat) : List Coin :=
  let coins := Coin.all
  let total_coins := coins.length
  (List.range total_coins).foldl
    (fun combination j =>
      if (i >>> j) &&& 1 = 1 then combination ++ [coins.getD j Coin.Penny]
      else combination)
    []

/-- Payload of the `GET /random` handler (`RandomResponse` in web.rs). -/
structure RandomResponse where
  coins : List Coin
  value : Nat
deriving DecidableEq, Repr

/-- One entry of the `GET /all` payload (`CombinationDetail` in web.rs). -/
structure CombinationDetail where
  index : Nat
  coins : List Coin
  value : Nat
deriving DecidableEq, Repr

/-- Payload of the `GET /all` handler (`AllCombinationsResponse` in web.rs). -/
structure AllCombinationsResponse where
  total_combinations : Nat
  combinations : List CombinationDetail
deriving DecidableEq, Repr

/-- The `GET /random` handler, as a function of the drawn mask `i`:
it samples one combination and pairs it with its total value. -/
def get_random_combination (i : Nat) : RandomResponse :=
  let combination := generate_random_combination i
  { coins := combination, value := total_value combination }

/-- The `GET /all` handler: it enumerates all combinations and wraps each
with its position (`index`) and total value. -/
def get_all_combinations : AllCombinationsResponse :=
  let all_combinations := generate_all_combinations
  let combinations := all_combinations.enum.map
    (fun p => { index := p.1, coins := p.2, value := total_value p.2 : CombinationDetail })
  { total_combinations := combinations.length, combinations := combinations }

/-- Claim C1: `generate_all_combinations()` returns 16 combinations; for
every mask `i` in `[0,15]`, the `i`-th combination contains the coin at
ordinal `j` iff bit `j` of `i` is set, listed in ascending ordinal order;
index 0 is empty and index 15 is the full catalog. -/
theorem all_combinations_bit_decoding (i : Nat) (h : i < 16) :
    generate_all_combinations.length = 16 ∧
    (∀ j, j < 4 →
      (Coin.all.getD j Coin.Penny ∈ generate_all_combinations.getD i [] ↔
        Nat.testBit i j = true)) ∧
    (generate_all_combinations.getD i []).Pairwise
      (fun a b => Coin.ordinal a < Coin.ordinal b) ∧
    generate_all_combinations.getD 0 [] = [] ∧
    generate_all_combinations.getD 15 []
      = [Coin.Penny, Coin.Nickel, Coin.Dime, Coin.Quarter] := by
  revert h
  revert i
  decide

/-- Witness for C1 at mask 5, bit 2: Dime is included in combination 5. -/
theorem all_combinations_bit_decoding_witness :
    Coin.all.getD 2 Coin.Penny ∈ generate_all_combinations.getD 5 [] ↔
      Nat.testBit 5 2 = true :=
  (all_combinations_bit_decoding 5 (by decide)).2.1 2 (by decide)

/-- Claim C2: the mask-to-combination mapping of
`generate_all_combinations()` is injective on `[0,15]`: distinct masks
yield distinct ordered sequences. -/
theorem all_combinations_injective (i : Nat) (hi : i < 16)
    (j : Nat) (hj : j < 16) (hne : i ≠ j) :
    generate_all_combinations.getD i [] ≠ generate_all_combinations.getD j [] := by
  revert hne
  revert hj
  revert j
  revert hi
  revert i
  decide

/-- Witness for C2 at masks 3 and 5. -/
theorem all_combinations_injective_witness :
    generate_all_combinations.getD 3 [] ≠ generate_all_combinations.getD 5 [] :=
  all_combinations_injective 3 (by decide) 5 (by decide) (by decide)

/-- Claim C3: `generate_random_combination` decodes its drawn mask by the
same rule as `generate_all_combinations`: for every mask `i` in `[0,15]`,
its result equals the `i`-th enumerated combination. -/
theorem random_combination_refines_enumeration (i : Nat) (h : i < 16) :
    generate_random_combination i = generate_all_combinations.getD i [] := by
  revert h
  revert i
  decide

/-- Witness for C3 at mask 7. -/
theorem random_combination_refines_enumeration_witness :
    generate_random_combination 7 = generate_all_combinations.getD 7 [] :=
  random_combination_refines_enumeration 7 (by decide)

/-- Claim C4: `total_value` sums `value_in_cents` over the combination
(whenever the mathematical sum fits in `u32`); it is 0 on the empty
combination, 41 on the full one, and over the 16 enumerated combinations
the minimum value is 0 and the maximum is 41. -/
theorem total_value_sums_cents (c : List Coin)
    (h : (c.map fun k => Coin.value_in_cents k).sum < 2 ^ 32) :
    total_value c = (c.map fun k => Coin.value_in_cents k).sum ∧
    total_value [] = 0 ∧
    total_value [Coin.Penny, Coin.Nickel, Coin.Dime, Coin.Quarter] = 41 ∧
    (0 ∈ generate_all_combinations.map total_value ∧
      ∀ v ∈ generate_all_combinations.map total_value, 0 ≤ v) ∧
    (41 ∈ generate_all_combinations.map total_value ∧
      ∀ v ∈ generate_all_combinations.map total_value, v ≤ 41) :=
  ⟨Nat.mod_eq_of_lt h, by decide, by decide, by decide, by decide⟩

/-- Witness for C4 at the single-coin combination `[Quarter]`. -/
theorem total_value_sums_cents_witness :
    total_value [Coin.Quarter]
      = ([Coin.Quarter].map fun k => Coin.value_in_cents k).sum :=
  (total_value_sums_cents [Coin.Quarter] (by decide)).1

/-- Counterexample to C5: the combination `[Nickel, Nickel]` with a
repeated denomination is a perfectly well-formed input to `total_value`
(combinations are plain sequences), and `total_value` evaluates on it,
contradicting the claim that it cannot be formed. -/
theorem duplicate_combination_constructible :
    total_value [Coin.Nickel, Coin.Nickel] = 10 := by
  decide

/-- Amended C5: combinations are plain sequences that do admit repeated
denominations; `total_value` accepts such inputs and sums with
multiplicity, e.g. a length-2 non-duplicate-free combination with total
value 10 exists, as the code's own duplicate-coins test asserts. -/
theorem duplicate_combination_summed_with_multiplicity :
    ∃ c : List Coin, ¬ c.Nodup ∧ c.length = 2 ∧ total_value c = 10 :=
  ⟨[Coin.Nickel, Coin.Nickel], by decide, by decide, by decide⟩

/-- Claim C6: every result `generate_random_combination` can return (for
any drawable mask in `[0,15]`) has length at most 4, total value at most
41, and only contains coins of the 4-member catalog. -/
theorem random_combination_bounds (i : Nat) (h : i < 16) :
    (generate_random_combination i).length ≤ 4 ∧
    total_value (generate_random_combination i) ≤ 41 ∧
    ∀ c ∈ generate_random_combination i, c ∈ Coin.all := by
  revert h
  revert i
  decide

/-- Witness for C6 at mask 15 (the full combination). -/
theorem random_combination_bounds_witness :
    (generate_random_combination 15).length ≤ 4 ∧
    total_value (generate_random_combination 15) ≤ 41 ∧
    ∀ c ∈ generate_random_combination 15, c ∈ Coin.all :=
  random_combination_bounds 15 (by decide)

/-- Claim C7: the `GET /all` payload has `total_combinations = 16`, each
entry's `index` equals its position (the generating mask), and the
entries at indices 5, 8 and 3 have values 11, 25 and 6 with the expected
coins. -/
theorem all_endpoint_payload (k : Nat) (h : k < 16) :
    get_all_combinations.total_combinations = 16 ∧
    (get_all_combinations.combinations.getD k ⟨0, [], 0⟩).index = k ∧
    (get_all_combinations.combinations.getD 5 ⟨0, [], 0⟩).value = 11 ∧
    (get_all_combinations.combinations.getD 5 ⟨0, [], 0⟩).coins
      = [Coin.Penny, Coin.Dime] ∧
    (get_all_combinations.combinations.getD 8 ⟨0, [], 0⟩).value = 25 ∧
    (get_all_combinations.combinations.getD 8 ⟨0, [], 0⟩).coins
      = [Coin.Quarter] ∧
    (get_all_combinations.combinations.getD 3 ⟨0, [], 0⟩).value = 6 ∧
    (get_all_combinations.combinations.getD 3 ⟨0, [], 0⟩).coins
      = [Coin.Penny, Coin.Nickel] := by
  revert h
  revert k
  decide

/-- Witness for C7 at position 8. -/
theorem all_endpoint_payload_witness :
    get_all_combinations.total_combinations = 16 ∧
    (get_all_combinations.combinations.getD 8 ⟨0, [], 0⟩).index = 8 :=
  ⟨(all_endpoint_payload 8 (by decide)).1, (all_endpoint_payload 8 (by decide)).2.1⟩

/-- Claim C8: in every `GET /random` payload (for any drawable mask in
`[0,15]`), the `value` field equals the sum of cent values of the coins
listed in the `coins` field. -/
theorem random_endpoint_value_matches_coins (i : Nat) (h : i < 16) :
    (get_random_combination i).value
      = ((get_random_combination i).coins.map fun k => Coin.value_in_cents k).sum := by
  revert h
  revert i
  decide

/-- Witness for C8 at mask 9 (Penny and Quarter). -/
theorem random_endpoint_value_matches_coins_witness :
    (get_random_combination 9).value
      = ((get_random_combination 9).coins.map fun k => Coin.value_in_cents k).sum :=
  random_endpoint_value_matches_coins 9 (by decide)

/-- Claim C9: `total_value` is order-independent: every permutation of a
combination has the same total value. -/
theorem total_value_perm_invariant (c c' : List Coin) (h : c.Perm c') :
    total_value c = total_value c' := by
  unfold total_value
  rw [List.Perm.sum_eq (h.map _)]

/-- Witness for C9 on `[Penny, Dime]` and its transposition. -/
theorem total_value_perm_invariant_witness :
    total_value [Coin.Penny, Coin.Dime] = total_value [Coin.Dime, Coin.Penny] :=
  total_value_perm_invariant [Coin.Penny, Coin.Dime] [Coin.Dime, Coin.Penny]
    (by decide)

/-- Claim C10: `total_value` is injective over the enumerated power set:
distinct masks in `[0,15]` yield combinations with distinct total values
(all 16 subset sums of 1, 5, 10, 25 are pairwise distinct). -/
theorem subset_sums_distinct (i : Nat) (hi : i < 16)
    (j : Nat) (hj : j < 16) (hne : i ≠ j) :
    total_value (generate_all_combinations.getD i [])
      ≠ total_value (generate_all_combinations.getD j []) := by
  revert hne
  revert hj
  revert j
  revert hi
  revert i
  decide

/-- Witness for C10 at masks 0 and 1. -/
theorem subset_sums_distinct_witness :
    total_value (generate_all_combinations.getD 0 [])
      ≠ total_value (generate_all_combinations.getD 1 []) :=
  subset_sums_distinct 0 (by decide) 1 (by decide) (by decide)
